import Mathlib

/-!
Shallow embedding of the Amlogic Meson8b/GXBB/AXG DWMAC glue layer
(drivers/net/ethernet/stmicro/stmmac/dwmac-meson8b.c) and proofs about
its PRG_ETH0 register-configuration logic.

The driver configures one 32-bit control register (PRG_ETH0) through
read-modify-write operations (meson8b_dwmac_mask_bits) and drives a small
clock chain.  We model the register as a natural number below 2^32, and
the initialization code as a function producing either an error or a
trace of register writes and clock requests; applying the trace of
read-modify-write events to a start register value reproduces the final
register state exactly as the driver would.

Clock-framework collaborators (clk_set_rate, clk_prepare_enable) are
external to this file's subject; they are modelled as always succeeding,
and their invocations are recorded in the trace.
-/

namespace Meson8b

/-! Register bitfield constants, transcribed from the defines at the top
of the source file.  GENMASK(h, l) expands to the mask with bits l..h
set. -/

def PRG_ETH0_RGMII_MODE : Nat := 1 <<< 0

def PRG_ETH0_EXT_PHY_MODE_MASK : Nat := 0x7

def PRG_ETH0_EXT_RGMII_MODE : Nat := 1

def PRG_ETH0_EXT_RMII_MODE : Nat := 4

def PRG_ETH0_TXDLY_MASK : Nat := 0x60

def PRG_ETH0_INVERTED_RMII_CLK : Nat := 1 <<< 11

def PRG_ETH0_TX_AND_PHY_REF_CLK : Nat := 1 <<< 12

def PRG_ETH0_ADJ_ENABLE : Nat := 1 <<< 13

def PRG_ETH0_ADJ_SETUP : Nat := 1 <<< 14

def PRG_ETH0_ADJ_DELAY : Nat := 0xF8000

def PRG_ETH0_ADJ_SKEW : Nat := 0x1F00000

/-- All ones in a 32-bit word; `m ^^^ U32_MAX` is the C expression `~m`
on a `u32` operand `m < 2^32`. -/
def U32_MAX : Nat := 2 ^ 32 - 1

/-- Binary logarithm by structural recursion on a fuel bound (so that
proofs can evaluate it); with `fuel ≥ n` it computes `Nat.log2 n`. -/
def log2F (fuel n : Nat) : Nat :=
  match fuel with
  | 0 => 0
  | f + 1 => if 2 ≤ n then log2F f (n / 2) + 1 else 0

/-- Shift distance of a bitfield mask: the position of its lowest set
bit, as the kernel's `__bf_shf`/`__ffs` compute for `FIELD_PREP` and
`FIELD_GET`.  `mask &&& (mask ^^^ (mask - 1))` isolates the lowest set
bit; its logarithm is the shift. -/
def bf_shf (mask : Nat) : Nat := log2F mask (mask &&& (mask ^^^ (mask - 1)))

/-- Kernel `FIELD_PREP(mask, v)`: shift `v` into the field position and
truncate to the field. -/
def FIELD_PREP (mask v : Nat) : Nat := (v <<< bf_shf mask) &&& mask

/-- Kernel `FIELD_GET(mask, v)`: extract the field covered by `mask`. -/
def FIELD_GET (mask v : Nat) : Nat := (v &&& mask) >>> bf_shf mask

/-- The PHY interface modes relevant to this driver: the five values its
switches recognise plus a sample of the other `phy_interface_t` values
(any mode outside the five supported ones takes the `default` branch in
the source, so one representative per behaviour suffices). -/
inductive PhyMode where
  | RGMII
  | RGMII_ID
  | RGMII_RXID
  | RGMII_TXID
  | RMII
  | MII
  | GMII
  | SGMII
deriving DecidableEq

/-- Linux `phy_interface_mode_is_rgmii`: the four RGMII variants. -/
def phy_interface_mode_is_rgmii (m : PhyMode) : Bool :=
  match m with
  | .RGMII | .RGMII_ID | .RGMII_RXID | .RGMII_TXID => true
  | _ => false

/-- The five interface modes the driver's switch statements accept. -/
def PhyMode.supported (m : PhyMode) : Bool :=
  phy_interface_mode_is_rgmii m || m == .RMII

/-- The distinct failure causes of the modelled code paths.  In the C
source every one of them is reported as `-EINVAL`; the constructor
records which check produced it (distinguished in the source only by the
`dev_err` message). -/
inductive DwmacError where
  | UnsupportedPhyMode
  | MissingTimingAdjustmentClock
  | InvalidDelayValue
deriving DecidableEq

/-- The errno value each failure cause is reported as: always `-EINVAL`
(-22) in the source. -/
def DwmacError.errno : DwmacError → Int := fun _ => -22

/-- The two clocks the initialization path may touch. -/
inductive ClkId where
  | timingAdjustment
  | rgmiiTx
deriving DecidableEq

/-- Observable actions of the modelled code, in program order:
read-modify-write register updates on PRG_ETH0, clock-rate requests,
clock enables, and the registration of the TX clock chain
(`meson8b_init_rgmii_tx_clk`, which performs no register write of its
own). -/
inductive Ev where
  | regWrite (mask value : Nat)
  | clkSetRate (c : ClkId) (hz : Nat)
  | clkPrepareEnable (c : ClkId)
  | buildClkGraph
deriving DecidableEq

/-- Result of running a modelled code path: the error it returned (none
on success) and the trace of actions it performed before stopping. -/
structure Outcome where
  err : Option DwmacError
  trace : List Ev
deriving DecidableEq

/-- The driver state fields that the modelled paths consult, as resolved
by the probe from the device tree: interface mode, the two delays in
nanoseconds, and whether the optional "timing-adjustment" clock exists
(`devm_clk_get_optional` returned non-NULL). -/
structure Dwmac8b where
  phy_mode : PhyMode
  tx_delay_ns : Nat
  rx_delay_ns : Nat
  timing_adj_clk : Bool
deriving DecidableEq

/-- `meson8b_dwmac_mask_bits`: read the register, clear `mask`, OR in
`value &&& mask`, write back.  `data &&& (mask ^^^ U32_MAX)` is the C
`data &= ~mask` on `u32` values. -/
def meson8b_dwmac_mask_bits (data mask value : Nat) : Nat :=
  (data &&& (mask ^^^ U32_MAX)) ||| (value &&& mask)

/-- Effect of one trace event on the register: `regWrite` applies the
read-modify-write helper, clock operations do not touch PRG_ETH0 fields
modelled here. -/
def applyEv (reg : Nat) (e : Ev) : Nat :=
  match e with
  | .regWrite mask value => meson8b_dwmac_mask_bits reg mask value
  | _ => reg

/-- Register value after a trace of events, applied in order. -/
def applyTrace (reg : Nat) (evs : List Ev) : Nat :=
  evs.foldl applyEv reg

/-- `tx_dly_config` as computed at the top of `meson8b_init_prg_eth`:
`FIELD_PREP(PRG_ETH0_TXDLY_MASK, tx_delay_ns >> 1)`. -/
def tx_dly_config (tx_delay_ns : Nat) : Nat :=
  FIELD_PREP PRG_ETH0_TXDLY_MASK (tx_delay_ns >>> 1)

/-- `rx_dly_config` as computed in `meson8b_init_prg_eth`: enable and
setup flags when the RX delay is exactly 2 ns, zero otherwise. -/
def rx_dly_config (rx_delay_ns : Nat) : Nat :=
  if rx_delay_ns = 2 then PRG_ETH0_ADJ_ENABLE ||| PRG_ETH0_ADJ_SETUP else 0

/-- The combined mask of the single delay/adjust write in
`meson8b_init_prg_eth` (spelled inline in the source call). -/
def PRG_ETH0_DELAY_ADJ_MASK : Nat :=
  PRG_ETH0_TXDLY_MASK ||| PRG_ETH0_ADJ_ENABLE ||| PRG_ETH0_ADJ_SETUP |||
  PRG_ETH0_ADJ_DELAY ||| PRG_ETH0_ADJ_SKEW

/-- `meson8b_init_prg_eth`, modelled step for step: compute the tx and
rx delay configurations, combine them according to the interface mode
(unknown modes fail), require and enable the timing-adjustment clock
when the rx adjustment is enabled, perform the single delay/adjust
write, then branch on RGMII vs RMII for the inverted-RMII-clock bit and
the TX clock chain, and finally set the TX/PHY reference clock enable
bit. -/
def meson8b_init_prg_eth (d : Dwmac8b) : Outcome :=
  let txc := tx_dly_config d.tx_delay_ns
  let rxc := rx_dly_config d.rx_delay_ns
  match (match d.phy_mode with
         | .RGMII => some (txc ||| rxc)
         | .RGMII_RXID => some txc
         | .RGMII_TXID => some rxc
         | .RGMII_ID => some 0
         | .RMII => some 0
         | _ => none) with
  | none => ⟨some .UnsupportedPhyMode, []⟩
  | some delay_config =>
    if rxc &&& PRG_ETH0_ADJ_ENABLE ≠ 0 ∧ d.timing_adj_clk = false then
      ⟨some .MissingTimingAdjustmentClock, []⟩
    else
      let pre : List Ev :=
        if rxc &&& PRG_ETH0_ADJ_ENABLE ≠ 0 then
          [.clkPrepareEnable .timingAdjustment]
        else []
      let tail : List Ev :=
        if phy_interface_mode_is_rgmii d.phy_mode then
          [.regWrite PRG_ETH0_INVERTED_RMII_CLK 0,
           .clkSetRate .rgmiiTx 125000000,
           .clkPrepareEnable .rgmiiTx]
        else
          [.regWrite PRG_ETH0_INVERTED_RMII_CLK PRG_ETH0_INVERTED_RMII_CLK]
      ⟨none,
       pre ++ [.regWrite PRG_ETH0_DELAY_ADJ_MASK delay_config] ++ tail ++
       [.regWrite PRG_ETH0_TX_AND_PHY_REF_CLK PRG_ETH0_TX_AND_PHY_REF_CLK]⟩

/-- `meson8b_set_phy_mode` (legacy chip families): set the single
RGMII-mode bit for any RGMII variant, clear it for RMII, reject
anything else. -/
def meson8b_set_phy_mode (m : PhyMode) : Outcome :=
  match m with
  | .RGMII | .RGMII_RXID | .RGMII_ID | .RGMII_TXID =>
      ⟨none, [.regWrite PRG_ETH0_RGMII_MODE PRG_ETH0_RGMII_MODE]⟩
  | .RMII =>
      ⟨none, [.regWrite PRG_ETH0_RGMII_MODE 0]⟩
  | _ => ⟨some .UnsupportedPhyMode, []⟩

/-- `meson_axg_set_phy_mode` (AXG and later): write the 3-bit extended
mode field, 1 for any RGMII variant and 4 for RMII, reject anything
else. -/
def meson_axg_set_phy_mode (m : PhyMode) : Outcome :=
  match m with
  | .RGMII | .RGMII_RXID | .RGMII_ID | .RGMII_TXID =>
      ⟨none, [.regWrite PRG_ETH0_EXT_PHY_MODE_MASK PRG_ETH0_EXT_RGMII_MODE]⟩
  | .RMII =>
      ⟨none, [.regWrite PRG_ETH0_EXT_PHY_MODE_MASK PRG_ETH0_EXT_RMII_MODE]⟩
  | _ => ⟨some .UnsupportedPhyMode, []⟩

/-- Chip families as selected by the OF match table: the meson8b data
uses the legacy phy-mode policy, the AXG data the extended one. -/
inductive Family where
  | meson8b
  | meson_axg
deriving DecidableEq

/-- The `set_phy_mode` dispatch through `dwmac->data`. -/
def set_phy_mode (fam : Family) (m : PhyMode) : Outcome :=
  match fam with
  | .meson8b => meson8b_set_phy_mode m
  | .meson_axg => meson_axg_set_phy_mode m

/-- The core sequence of `meson8b_dwmac_probe` after the device-tree
values have been resolved into `d`: validate the RX delay (the only
delay the probe validates), then build the TX clock chain
(`meson8b_init_rgmii_tx_clk`, a pure clock registration recorded as
`buildClkGraph`), then apply the family's phy-mode policy, then run
`meson8b_init_prg_eth`.  Each failing step stops the sequence and
returns its error. -/
def meson8b_dwmac_probe (fam : Family) (d : Dwmac8b) : Outcome :=
  if d.rx_delay_ns ≠ 0 ∧ d.rx_delay_ns ≠ 2 then
    ⟨some .InvalidDelayValue, []⟩
  else
    let o1 := set_phy_mode fam d.phy_mode
    match o1.err with
    | some e => ⟨some e, Ev.buildClkGraph :: o1.trace⟩
    | none =>
      let o2 := meson8b_init_prg_eth d
      ⟨o2.err, Ev.buildClkGraph :: (o1.trace ++ o2.trace)⟩

/-- Modelled from the spec: the decode direction of the tx-delay codec.
The source only encodes (`FIELD_PREP` at the top of
`meson8b_init_prg_eth`); the spec's Bitfield Codec names `decode` as the
inverse `unpack`, mapping the packed 2-bit field back to nanoseconds at
2 ns per step, which is `FIELD_GET` followed by multiplication by 2. -/
def decode_tx_delay (bits : Nat) : Nat :=
  FIELD_GET PRG_ETH0_TXDLY_MASK bits * 2

/-- Recogniser for the delay/adjust write among trace events. -/
def isDelayAdjWrite (e : Ev) : Bool :=
  match e with
  | .regWrite mask _ => mask == PRG_ETH0_DELAY_ADJ_MASK
  | _ => false

/-- Spec-side value of the tx-delay bits: `ns / 2` packed into the 2-bit
field at bits 6:5 (spec Bitfield Codec, `bits = ns / 2`). -/
def spec_tx_bits (ns : Nat) : Nat := (ns / 2) <<< 5

/-- Spec-side rx adjustment bits: adjust-enable and adjust-setup when
the RX delay is 2 ns, zero otherwise. -/
def spec_rx_adjust_bits (rx : Nat) : Nat :=
  if rx = 2 then PRG_ETH0_ADJ_ENABLE ||| PRG_ETH0_ADJ_SETUP else 0

/-- Spec-side combined delay value per interface mode (spec §4.4 step 3,
as restated by the claim): RGMII takes both, RGMII_RXID the tx bits
only, RGMII_TXID the rx adjustment only, RGMII_ID and RMII zero. -/
def spec_delay_value (m : PhyMode) (tx rx : Nat) : Nat :=
  match m with
  | .RGMII => spec_tx_bits tx ||| spec_rx_adjust_bits rx
  | .RGMII_RXID => spec_tx_bits tx
  | .RGMII_TXID => spec_rx_adjust_bits rx
  | _ => 0

/-- The `delay_config` value selected by the mode switch in
`meson8b_init_prg_eth` for a supported mode (zero for any other
constructor, which the switch rejects before using the value). -/
def delay_config_of (m : PhyMode) (tx rx : Nat) : Nat :=
  match m with
  | .RGMII => tx_dly_config tx ||| rx_dly_config rx
  | .RGMII_RXID => tx_dly_config tx
  | .RGMII_TXID => rx_dly_config rx
  | _ => 0

/-! Helper lemmas about the read-modify-write primitive and the tx-delay
bitfield. -/

/-- Bits outside `mask` survive a `meson8b_dwmac_mask_bits` call
unchanged (for a 32-bit register value). -/
theorem mask_bits_frame (data mask value : Nat) (h : data < 2 ^ 32) :
    ∀ i, mask.testBit i = false →
      (meson8b_dwmac_mask_bits data mask value).testBit i = data.testBit i := by
  intro i hi
  have hu : Nat.testBit 4294967295 i = decide (i < 32) := by
    have h0 := Nat.testBit_two_pow_sub_one 32 i
    norm_num at h0 ⊢
    exact h0
  unfold meson8b_dwmac_mask_bits U32_MAX
  by_cases h32 : i < 32
  · simp [Nat.testBit_or, Nat.testBit_and, Nat.testBit_xor, hi, hu, h32]
  · have hd : data.testBit i = false :=
      Nat.testBit_lt_two_pow
        (lt_of_lt_of_le h (Nat.pow_le_pow_right (by norm_num) (Nat.le_of_not_lt h32)))
    simp [Nat.testBit_or, Nat.testBit_and, Nat.testBit_xor, hi, hd, hu, h32]

/-- Inside `mask` (a 32-bit mask), `meson8b_dwmac_mask_bits` installs
exactly the masked new value. -/
theorem mask_bits_field (data mask value : Nat) (hm : mask < 2 ^ 32) :
    meson8b_dwmac_mask_bits data mask value &&& mask = value &&& mask := by
  unfold meson8b_dwmac_mask_bits U32_MAX
  apply Nat.eq_of_testBit_eq
  intro i
  have hu : Nat.testBit 4294967295 i = decide (i < 32) := by
    have h0 := Nat.testBit_two_pow_sub_one 32 i
    norm_num at h0 ⊢
    exact h0
  by_cases hb : mask.testBit i = true
  · have h32 : i < 32 := by
      by_contra hge
      have : mask.testBit i = false :=
        Nat.testBit_lt_two_pow
          (lt_of_lt_of_le hm (Nat.pow_le_pow_right (by norm_num) (Nat.le_of_not_lt hge)))
      simp [this] at hb
    simp [Nat.testBit_or, Nat.testBit_and, Nat.testBit_xor, hb, hu, h32]
  · simp only [Bool.not_eq_true] at hb
    simp [Nat.testBit_and, hb]

/-- Masking a value shifted into the tx-delay field truncates it to its
low two bits. -/
theorem shiftLeft_five_and_txdly (x : Nat) :
    (x <<< 5) &&& PRG_ETH0_TXDLY_MASK = (x % 4) <<< 5 := by
  have h1 : PRG_ETH0_TXDLY_MASK = (2 ^ 2 - 1) <<< 5 := rfl
  have h2 : (4 : Nat) = 2 ^ 2 := rfl
  rw [h1, h2]
  apply Nat.eq_of_testBit_eq
  intro i
  simp only [Nat.testBit_and, Nat.testBit_shiftLeft, Nat.testBit_two_pow_sub_one,
    Nat.testBit_mod_two_pow]
  by_cases h : 5 ≤ i <;> simp [h, Bool.and_comm, Bool.and_left_comm]

/-- The computed `tx_dly_config` equals the (truncated) two-bit quantity
`(tx_delay_ns >> 1) mod 4` placed at bit 5. -/
theorem tx_dly_config_eq_mod (tx : Nat) :
    tx_dly_config tx = ((tx >>> 1) % 4) <<< 5 := by
  have hs : bf_shf PRG_ETH0_TXDLY_MASK = 5 := by decide
  unfold tx_dly_config FIELD_PREP
  rw [hs, shiftLeft_five_and_txdly]

/-! Claim theorems. -/

/-- Claim C2: one call to the register mutation operation leaves the
register equal to (old AND NOT mask) OR (value AND mask), and every bit
outside the mask holds exactly its pre-existing value afterwards. -/
theorem meson8b_dwmac_mask_bits_rmw (old mask value : Nat) (h : old < 2 ^ 32) :
    meson8b_dwmac_mask_bits old mask value
      = (old &&& (mask ^^^ U32_MAX)) ||| (value &&& mask) ∧
    ∀ i, mask.testBit i = false →
      (meson8b_dwmac_mask_bits old mask value).testBit i = old.testBit i :=
  ⟨rfl, mask_bits_frame old mask value h⟩

/-- Witness for C2 at old = 0x123, mask = 0x60, value = 0x40. -/
theorem meson8b_dwmac_mask_bits_rmw_w :
    (0x123 : Nat) < 2 ^ 32 ∧
    (meson8b_dwmac_mask_bits 0x123 0x60 0x40
       = ((0x123 &&& (0x60 ^^^ U32_MAX)) ||| (0x40 &&& 0x60)) ∧
     ∀ i, (0x60 : Nat).testBit i = false →
       (meson8b_dwmac_mask_bits 0x123 0x60 0x40).testBit i
         = (0x123 : Nat).testBit i) :=
  ⟨by norm_num, meson8b_dwmac_mask_bits_rmw 0x123 0x60 0x40 (by norm_num)⟩

/-- Claim C5: for every ns in \x7b0, 2, 4, 6\x7d the transmit-delay
encoding computes ns / 2 packed into the 2-bit field at bits 6:5, and
decoding the packed field recovers ns exactly. -/
theorem encode_tx_delay_roundtrip (ns : Nat)
    (h : ns = 0 ∨ ns = 2 ∨ ns = 4 ∨ ns = 6) :
    tx_dly_config ns = FIELD_PREP PRG_ETH0_TXDLY_MASK (ns / 2) ∧
    decode_tx_delay (tx_dly_config ns) = ns := by
  rcases h with h | h | h | h <;> subst h <;> exact ⟨by decide, by decide⟩

/-- Witness for C5 at ns = 6. -/
theorem encode_tx_delay_roundtrip_w :
    ((6 : Nat) = 0 ∨ (6 : Nat) = 2 ∨ (6 : Nat) = 4 ∨ (6 : Nat) = 6) ∧
    (tx_dly_config 6 = FIELD_PREP PRG_ETH0_TXDLY_MASK (6 / 2) ∧
     decode_tx_delay (tx_dly_config 6) = 6) :=
  ⟨by decide, encode_tx_delay_roundtrip 6 (by decide)⟩

/-- Claim C3: for a supported interface mode, when the computed rx
adjustment configuration has the enable flag set (i.e. rx_delay_ns = 2)
and the timing-adjustment clock is absent, `meson8b_init_prg_eth` fails
with MissingTimingAdjustmentClock (errno -EINVAL) having performed no
action at all, so the register state is unchanged by the failing step. -/
theorem meson8b_init_prg_eth_missing_adj_clk (d : Dwmac8b)
    (hm : PhyMode.supported d.phy_mode = true)
    (hrx : rx_dly_config d.rx_delay_ns &&& PRG_ETH0_ADJ_ENABLE ≠ 0)
    (hclk : d.timing_adj_clk = false) :
    (meson8b_init_prg_eth d).err = some .MissingTimingAdjustmentClock ∧
    DwmacError.errno .MissingTimingAdjustmentClock = -22 ∧
    (meson8b_init_prg_eth d).trace = [] ∧
    ∀ reg : Nat, applyTrace reg (meson8b_init_prg_eth d).trace = reg := by
  obtain ⟨m, tx, rx, adj⟩ := d
  dsimp only at hm hrx hclk ⊢
  subst hclk
  have hrx2 : rx = 2 := by
    by_cases h : rx = 2
    · exact h
    · exact absurd (by simp [rx_dly_config, h]) hrx
  subst hrx2
  cases m <;> first
    | exact absurd hm (by decide)
    | simp [meson8b_init_prg_eth, rx_dly_config, applyTrace, DwmacError.errno,
        PRG_ETH0_ADJ_ENABLE, PRG_ETH0_ADJ_SETUP]

/-- Witness for C3 at mode RGMII, tx = 2 ns, rx = 2 ns, clock absent. -/
theorem meson8b_init_prg_eth_missing_adj_clk_w :
    PhyMode.supported PhyMode.RGMII = true ∧
    rx_dly_config 2 &&& PRG_ETH0_ADJ_ENABLE ≠ 0 ∧
    ((meson8b_init_prg_eth ⟨.RGMII, 2, 2, false⟩).err
       = some .MissingTimingAdjustmentClock ∧
     DwmacError.errno .MissingTimingAdjustmentClock = -22 ∧
     (meson8b_init_prg_eth ⟨.RGMII, 2, 2, false⟩).trace = [] ∧
     ∀ reg : Nat, applyTrace reg (meson8b_init_prg_eth ⟨.RGMII, 2, 2, false⟩).trace
       = reg) :=
  ⟨by decide, by decide,
   meson8b_init_prg_eth_missing_adj_clk ⟨.RGMII, 2, 2, false⟩ (by decide) (by decide) rfl⟩

/-- Claim C4 counterexample: with mode RGMII_RXID (whose combined delay
value drops the rx adjustment bits), rx_delay_ns = 2 and the
timing-adjustment clock absent, initialization does not succeed — it
fails with MissingTimingAdjustmentClock, contradicting the claim that
such configurations succeed without the oscillator. -/
theorem timing_adj_clk_required_rxid_cex :
    (meson8b_init_prg_eth ⟨.RGMII_RXID, 0, 2, false⟩).err
      = some .MissingTimingAdjustmentClock ∧
    (meson8b_init_prg_eth ⟨.RGMII_RXID, 0, 2, false⟩).err ≠ none := by
  decide

/-- Claim C4 amended: for every supported interface mode the
timing-adjustment oscillator is required precisely when rx_delay_ns = 2
— the check is made on the computed rx adjustment configuration before
it is combined with the mode, so it applies to RGMII_RXID, RGMII_ID and
RMII just as to RGMII and RGMII_TXID; whenever rx_delay_ns is not 2 or
the oscillator is present, initialization succeeds. -/
theorem timing_adj_clk_required_iff (d : Dwmac8b)
    (hm : PhyMode.supported d.phy_mode = true) :
    ((meson8b_init_prg_eth d).err = some .MissingTimingAdjustmentClock ↔
       d.rx_delay_ns = 2 ∧ d.timing_adj_clk = false) ∧
    (¬(d.rx_delay_ns = 2 ∧ d.timing_adj_clk = false) →
       (meson8b_init_prg_eth d).err = none) := by
  obtain ⟨m, tx, rx, adj⟩ := d
  dsimp only at hm ⊢
  by_cases hrx : rx = 2
  · subst hrx
    cases adj <;> cases m <;> first
      | exact absurd hm (by decide)
      | simp [meson8b_init_prg_eth, rx_dly_config, phy_interface_mode_is_rgmii,
          PRG_ETH0_ADJ_ENABLE, PRG_ETH0_ADJ_SETUP]
  · cases m <;> first
      | exact absurd hm (by decide)
      | simp [meson8b_init_prg_eth, rx_dly_config, hrx, phy_interface_mode_is_rgmii]

/-- Witness for the amended C4 at mode RMII, rx = 2 ns, clock absent. -/
theorem timing_adj_clk_required_iff_w :
    PhyMode.supported PhyMode.RMII = true ∧
    (((meson8b_init_prg_eth ⟨.RMII, 0, 2, false⟩).err
        = some .MissingTimingAdjustmentClock ↔
      (2 : Nat) = 2 ∧ false = false) ∧
     (¬((2 : Nat) = 2 ∧ false = false) →
       (meson8b_init_prg_eth ⟨.RMII, 0, 2, false⟩).err = none)) :=
  ⟨by decide, timing_adj_clk_required_iff ⟨.RMII, 0, 2, false⟩ (by decide)⟩

/-- Claim C1: for every supported interface mode and valid delay
configuration, the single delay/adjust write uses the combined mask
covering the tx-delay field, adjust-enable, adjust-setup, adjust-delay
and adjust-skew, and writes the mode-determined value (RGMII: tx bits OR
rx adjust bits; RGMII_RXID: tx bits only; RGMII_TXID: rx adjust bits
only; RGMII_ID and RMII: zero), with the adjust-delay and adjust-skew
sub-fields always zero; for any mode outside the five, the computation
fails with UnsupportedPhyMode (errno -EINVAL) and performs no write. -/
theorem meson8b_init_prg_eth_delay_write (d : Dwmac8b) :
    (PhyMode.supported d.phy_mode = true →
     (d.tx_delay_ns = 0 ∨ d.tx_delay_ns = 2 ∨ d.tx_delay_ns = 4 ∨ d.tx_delay_ns = 6) →
     (d.rx_delay_ns = 0 ∨ d.rx_delay_ns = 2) →
     (d.rx_delay_ns = 2 → d.timing_adj_clk = true) →
       (meson8b_init_prg_eth d).trace.filter isDelayAdjWrite
         = [Ev.regWrite PRG_ETH0_DELAY_ADJ_MASK
             (spec_delay_value d.phy_mode d.tx_delay_ns d.rx_delay_ns)] ∧
       spec_delay_value d.phy_mode d.tx_delay_ns d.rx_delay_ns &&&
         (PRG_ETH0_ADJ_DELAY ||| PRG_ETH0_ADJ_SKEW) = 0) ∧
    (PhyMode.supported d.phy_mode = false →
       (meson8b_init_prg_eth d).err = some .UnsupportedPhyMode ∧
       DwmacError.errno .UnsupportedPhyMode = -22 ∧
       (meson8b_init_prg_eth d).trace = []) := by
  obtain ⟨m, tx, rx, adj⟩ := d
  dsimp only
  constructor
  · intro hm htx hrx hadj
    rcases hrx with h | h <;> subst h
    · rcases htx with h | h | h | h <;> subst h <;> cases adj <;> cases m <;> first
        | exact absurd hm (by decide)
        | decide
    · have ha := hadj rfl
      subst ha
      rcases htx with h | h | h | h <;> subst h <;> cases m <;> first
        | exact absurd hm (by decide)
        | decide
  · intro hm
    cases m <;> first
      | exact absurd hm (by decide)
      | simp [meson8b_init_prg_eth, DwmacError.errno]

/-- Witness for C1 at mode RGMII, tx = 2 ns, rx = 2 ns, clock present,
and at the unsupported mode MII. -/
theorem meson8b_init_prg_eth_delay_write_w :
    ((meson8b_init_prg_eth ⟨.RGMII, 2, 2, true⟩).trace.filter isDelayAdjWrite
       = [Ev.regWrite PRG_ETH0_DELAY_ADJ_MASK (spec_delay_value .RGMII 2 2)] ∧
     spec_delay_value .RGMII 2 2 &&& (PRG_ETH0_ADJ_DELAY ||| PRG_ETH0_ADJ_SKEW) = 0) ∧
    ((meson8b_init_prg_eth ⟨.MII, 2, 2, true⟩).err = some .UnsupportedPhyMode ∧
     DwmacError.errno .UnsupportedPhyMode = -22 ∧
     (meson8b_init_prg_eth ⟨.MII, 2, 2, true⟩).trace = []) :=
  ⟨(meson8b_init_prg_eth_delay_write ⟨.RGMII, 2, 2, true⟩).1
     (by decide) (by decide) (by decide) (fun _ => rfl),
   (meson8b_init_prg_eth_delay_write ⟨.MII, 2, 2, true⟩).2 (by decide)⟩

/-- Claim C6 counterexample: tx_delay_ns = 8 lies outside \x7b0, 2, 4,
6\x7d, yet the probe does not reject it — initialization succeeds, and
the delay/adjust write carries a tx field silently truncated to zero
instead of an InvalidDelayValue failure. -/
theorem tx_delay_unvalidated_cex :
    (meson8b_dwmac_probe .meson8b ⟨.RGMII, 8, 0, false⟩).err = none ∧
    (meson8b_init_prg_eth ⟨.RGMII, 8, 0, false⟩).trace.filter isDelayAdjWrite
      = [Ev.regWrite PRG_ETH0_DELAY_ADJ_MASK 0] := by
  decide

/-- Claim C6 amended: the probe validates only rx_delay_ns, never
tx_delay_ns; for every tx_delay_ns value — in range or not — and
otherwise valid configuration, initialization completes without any
InvalidDelayValue rejection, the out-of-range transmit delays being
silently truncated by the encoding instead. -/
theorem probe_accepts_any_tx_delay (fam : Family) (d : Dwmac8b)
    (hm : PhyMode.supported d.phy_mode = true)
    (hrx : d.rx_delay_ns = 0 ∨ d.rx_delay_ns = 2)
    (hadj : d.rx_delay_ns = 2 → d.timing_adj_clk = true) :
    (meson8b_dwmac_probe fam d).err = none := by
  obtain ⟨m, tx, rx, adj⟩ := d
  dsimp only at hm hrx hadj ⊢
  rcases hrx with h | h <;> subst h
  · cases adj <;> cases fam <;> cases m <;> first
      | exact absurd hm (by decide)
      | simp [meson8b_dwmac_probe, set_phy_mode, meson8b_set_phy_mode,
          meson_axg_set_phy_mode, meson8b_init_prg_eth, rx_dly_config,
          phy_interface_mode_is_rgmii]
  · have ha := hadj rfl
    subst ha
    cases fam <;> cases m <;> first
      | exact absurd hm (by decide)
      | simp [meson8b_dwmac_probe, set_phy_mode, meson8b_set_phy_mode,
          meson_axg_set_phy_mode, meson8b_init_prg_eth, rx_dly_config,
          phy_interface_mode_is_rgmii, PRG_ETH0_ADJ_ENABLE, PRG_ETH0_ADJ_SETUP]

/-- Witness for the amended C6 at tx = 8 (out of range), mode RGMII,
rx = 0, legacy family. -/
theorem probe_accepts_any_tx_delay_w :
    PhyMode.supported PhyMode.RGMII = true ∧
    ((0 : Nat) = 0 ∨ (0 : Nat) = 2) ∧
    (meson8b_dwmac_probe .meson8b ⟨.RGMII, 8, 0, false⟩).err = none :=
  ⟨by decide, by decide,
   probe_accepts_any_tx_delay .meson8b ⟨.RGMII, 8, 0, false⟩ (by decide)
     (by decide) (by intro h; exact absurd h (by decide))⟩

/-- Claim C7: for every rx_delay_ns outside \x7b0, 2\x7d the probe fails
with InvalidDelayValue (errno -EINVAL) before any clock-graph
construction or register write occurs (its trace is empty); for
rx_delay_ns in \x7b0, 2\x7d this check passes — the probe never reports
InvalidDelayValue. -/
theorem meson8b_dwmac_probe_rx_validation (fam : Family) (d : Dwmac8b) :
    (d.rx_delay_ns ≠ 0 ∧ d.rx_delay_ns ≠ 2 →
       (meson8b_dwmac_probe fam d).err = some .InvalidDelayValue ∧
       DwmacError.errno .InvalidDelayValue = -22 ∧
       (meson8b_dwmac_probe fam d).trace = []) ∧
    ((d.rx_delay_ns = 0 ∨ d.rx_delay_ns = 2) →
       (meson8b_dwmac_probe fam d).err ≠ some .InvalidDelayValue) := by
  obtain ⟨m, tx, rx, adj⟩ := d
  dsimp only
  constructor
  · intro h
    simp [meson8b_dwmac_probe, h.1, h.2, DwmacError.errno]
  · intro h
    rcases h with h | h <;> subst h <;> cases adj <;> cases fam <;> cases m <;>
      simp [meson8b_dwmac_probe, set_phy_mode, meson8b_set_phy_mode,
        meson_axg_set_phy_mode, meson8b_init_prg_eth, rx_dly_config,
        phy_interface_mode_is_rgmii, PRG_ETH0_ADJ_ENABLE, PRG_ETH0_ADJ_SETUP]

/-- Witness for C7 at rx = 7 ns (invalid) and rx = 0 ns (valid). -/
theorem meson8b_dwmac_probe_rx_validation_w :
    (((7 : Nat) ≠ 0 ∧ (7 : Nat) ≠ 2 →
       (meson8b_dwmac_probe .meson8b ⟨.RGMII, 2, 7, true⟩).err
         = some .InvalidDelayValue ∧
       DwmacError.errno .InvalidDelayValue = -22 ∧
       (meson8b_dwmac_probe .meson8b ⟨.RGMII, 2, 7, true⟩).trace = []) ∧
     (((7 : Nat) = 0 ∨ (7 : Nat) = 2) →
       (meson8b_dwmac_probe .meson8b ⟨.RGMII, 2, 7, true⟩).err
         ≠ some .InvalidDelayValue)) :=
  meson8b_dwmac_probe_rx_validation .meson8b ⟨.RGMII, 2, 7, true⟩

/-- Claim C8: on every successful `meson8b_init_prg_eth` run, the
actions after the delay/adjust write are: for an RGMII-family mode,
clearing the inverted-RMII-clock bit followed by setting the TX clock to
125 MHz and enabling it through the clock chain; for RMII, setting the
inverted-RMII-clock bit with no TX-clock-tree request at all; and the
final register action always sets the TX-and-PHY-reference-clock enable
bit, after all other writes. -/
theorem meson8b_init_prg_eth_clock_sequence (d : Dwmac8b)
    (hm : PhyMode.supported d.phy_mode = true)
    (hadj : d.rx_delay_ns = 2 → d.timing_adj_clk = true) :
    (meson8b_init_prg_eth d).err = none ∧
    (meson8b_init_prg_eth d).trace =
      (if d.rx_delay_ns = 2 then [Ev.clkPrepareEnable .timingAdjustment] else [])
      ++ [Ev.regWrite PRG_ETH0_DELAY_ADJ_MASK
            (delay_config_of d.phy_mode d.tx_delay_ns d.rx_delay_ns)]
      ++ (if phy_interface_mode_is_rgmii d.phy_mode then
            [Ev.regWrite PRG_ETH0_INVERTED_RMII_CLK 0,
             Ev.clkSetRate .rgmiiTx 125000000,
             Ev.clkPrepareEnable .rgmiiTx]
          else
            [Ev.regWrite PRG_ETH0_INVERTED_RMII_CLK PRG_ETH0_INVERTED_RMII_CLK])
      ++ [Ev.regWrite PRG_ETH0_TX_AND_PHY_REF_CLK PRG_ETH0_TX_AND_PHY_REF_CLK] := by
  obtain ⟨m, tx, rx, adj⟩ := d
  dsimp only at hm hadj ⊢
  by_cases hrx : rx = 2
  · subst hrx
    have ha := hadj rfl
    subst ha
    cases m <;> first
      | exact absurd hm (by decide)
      | simp [meson8b_init_prg_eth, rx_dly_config, delay_config_of,
          phy_interface_mode_is_rgmii, PRG_ETH0_ADJ_ENABLE, PRG_ETH0_ADJ_SETUP]
  · cases m <;> first
      | exact absurd hm (by decide)
      | simp [meson8b_init_prg_eth, rx_dly_config, hrx, delay_config_of,
          phy_interface_mode_is_rgmii]

/-- Witness for C8 at mode RMII, tx = 0 ns, rx = 0 ns (spec Scenario 2:
clock-invert bit set, no TX-clock-tree configuration attempted). -/
theorem meson8b_init_prg_eth_clock_sequence_w :
    PhyMode.supported PhyMode.RMII = true ∧
    ((meson8b_init_prg_eth ⟨.RMII, 0, 0, false⟩).err = none ∧
     (meson8b_init_prg_eth ⟨.RMII, 0, 0, false⟩).trace =
       (if (0 : Nat) = 2 then [Ev.clkPrepareEnable .timingAdjustment] else [])
       ++ [Ev.regWrite PRG_ETH0_DELAY_ADJ_MASK (delay_config_of .RMII 0 0)]
       ++ (if phy_interface_mode_is_rgmii .RMII then
             [Ev.regWrite PRG_ETH0_INVERTED_RMII_CLK 0,
              Ev.clkSetRate .rgmiiTx 125000000,
              Ev.clkPrepareEnable .rgmiiTx]
           else
             [Ev.regWrite PRG_ETH0_INVERTED_RMII_CLK PRG_ETH0_INVERTED_RMII_CLK])
       ++ [Ev.regWrite PRG_ETH0_TX_AND_PHY_REF_CLK PRG_ETH0_TX_AND_PHY_REF_CLK]) :=
  ⟨by decide,
   meson8b_init_prg_eth_clock_sequence ⟨.RMII, 0, 0, false⟩ (by decide)
     (by intro h; exact absurd h (by decide))⟩

/-- Claim C9: the legacy policy writes the single-bit field at bit 0 as
1 for every RGMII-family mode and 0 for RMII; the extended policy writes
the 3-bit field at bits 2:0 as 1 for every RGMII-family mode and 4 for
RMII; both fail with UnsupportedPhyMode (errno -EINVAL) for any other
mode; and neither policy's write changes any bit outside its field. -/
theorem set_phy_mode_policy_encodings (m : PhyMode) (reg : Nat)
    (h32 : reg < 2 ^ 32) :
    (phy_interface_mode_is_rgmii m = true →
       (meson8b_set_phy_mode m).err = none ∧
       FIELD_GET PRG_ETH0_RGMII_MODE
         (applyTrace reg (meson8b_set_phy_mode m).trace) = 1 ∧
       (meson_axg_set_phy_mode m).err = none ∧
       FIELD_GET PRG_ETH0_EXT_PHY_MODE_MASK
         (applyTrace reg (meson_axg_set_phy_mode m).trace)
         = PRG_ETH0_EXT_RGMII_MODE) ∧
    (m = .RMII →
       (meson8b_set_phy_mode m).err = none ∧
       FIELD_GET PRG_ETH0_RGMII_MODE
         (applyTrace reg (meson8b_set_phy_mode m).trace) = 0 ∧
       (meson_axg_set_phy_mode m).err = none ∧
       FIELD_GET PRG_ETH0_EXT_PHY_MODE_MASK
         (applyTrace reg (meson_axg_set_phy_mode m).trace)
         = PRG_ETH0_EXT_RMII_MODE) ∧
    (phy_interface_mode_is_rgmii m = false → m ≠ .RMII →
       (meson8b_set_phy_mode m).err = some .UnsupportedPhyMode ∧
       (meson_axg_set_phy_mode m).err = some .UnsupportedPhyMode ∧
       DwmacError.errno .UnsupportedPhyMode = -22) ∧
    (∀ i, PRG_ETH0_RGMII_MODE.testBit i = false →
       (applyTrace reg (meson8b_set_phy_mode m).trace).testBit i
         = reg.testBit i) ∧
    (∀ i, PRG_ETH0_EXT_PHY_MODE_MASK.testBit i = false →
       (applyTrace reg (meson_axg_set_phy_mode m).trace).testBit i
         = reg.testBit i) := by
  have hA : ∀ v : Nat, FIELD_GET PRG_ETH0_RGMII_MODE
      (meson8b_dwmac_mask_bits reg PRG_ETH0_RGMII_MODE v)
        = v &&& PRG_ETH0_RGMII_MODE := by
    intro v
    unfold FIELD_GET
    rw [mask_bits_field reg PRG_ETH0_RGMII_MODE v (by decide)]
    have hs : bf_shf PRG_ETH0_RGMII_MODE = 0 := by decide
    rw [hs, Nat.shiftRight_zero]
  have hB : ∀ v : Nat, FIELD_GET PRG_ETH0_EXT_PHY_MODE_MASK
      (meson8b_dwmac_mask_bits reg PRG_ETH0_EXT_PHY_MODE_MASK v)
        = v &&& PRG_ETH0_EXT_PHY_MODE_MASK := by
    intro v
    unfold FIELD_GET
    rw [mask_bits_field reg PRG_ETH0_EXT_PHY_MODE_MASK v (by decide)]
    have hs : bf_shf PRG_ETH0_EXT_PHY_MODE_MASK = 0 := by decide
    rw [hs, Nat.shiftRight_zero]
  refine ⟨?_, ?_, ?_, ?_, ?_⟩
  · intro hr
    cases m <;> first
      | exact absurd hr (by decide)
      | exact ⟨rfl, by
          simp only [meson8b_set_phy_mode, applyTrace, List.foldl_cons,
            List.foldl_nil, applyEv]
          rw [hA PRG_ETH0_RGMII_MODE]
          decide,
        rfl, by
          simp only [meson_axg_set_phy_mode, applyTrace, List.foldl_cons,
            List.foldl_nil, applyEv]
          rw [hB PRG_ETH0_EXT_RGMII_MODE]
          decide⟩
  · intro hr
    subst hr
    exact ⟨rfl, by
        simp only [meson8b_set_phy_mode, applyTrace, List.foldl_cons,
          List.foldl_nil, applyEv]
        rw [hA 0]
        decide,
      rfl, by
        simp only [meson_axg_set_phy_mode, applyTrace, List.foldl_cons,
          List.foldl_nil, applyEv]
        rw [hB PRG_ETH0_EXT_RMII_MODE]
        decide⟩
  · intro hr hne
    cases m <;> first
      | exact absurd hr (by decide)
      | exact absurd rfl hne
      | exact ⟨rfl, rfl, rfl⟩
  · intro i hi
    cases m <;>
      simp only [meson8b_set_phy_mode, applyTrace, List.foldl_cons,
        List.foldl_nil, applyEv] <;>
      first
        | rfl
        | exact mask_bits_frame reg PRG_ETH0_RGMII_MODE _ h32 i hi
  · intro i hi
    cases m <;>
      simp only [meson_axg_set_phy_mode, applyTrace, List.foldl_cons,
        List.foldl_nil, applyEv] <;>
      first
        | rfl
        | exact mask_bits_frame reg PRG_ETH0_EXT_PHY_MODE_MASK _ h32 i hi

/-- Witness for C9 at mode RGMII and register value 0x1e0f. -/
theorem set_phy_mode_policy_encodings_w :
    (phy_interface_mode_is_rgmii .RGMII = true →
       (meson8b_set_phy_mode .RGMII).err = none ∧
       FIELD_GET PRG_ETH0_RGMII_MODE
         (applyTrace 0x1e0f (meson8b_set_phy_mode .RGMII).trace) = 1 ∧
       (meson_axg_set_phy_mode .RGMII).err = none ∧
       FIELD_GET PRG_ETH0_EXT_PHY_MODE_MASK
         (applyTrace 0x1e0f (meson_axg_set_phy_mode .RGMII).trace)
         = PRG_ETH0_EXT_RGMII_MODE) ∧
    (PhyMode.RGMII = .RMII →
       (meson8b_set_phy_mode .RGMII).err = none ∧
       FIELD_GET PRG_ETH0_RGMII_MODE
         (applyTrace 0x1e0f (meson8b_set_phy_mode .RGMII).trace) = 0 ∧
       (meson_axg_set_phy_mode .RGMII).err = none ∧
       FIELD_GET PRG_ETH0_EXT_PHY_MODE_MASK
         (applyTrace 0x1e0f (meson_axg_set_phy_mode .RGMII).trace)
         = PRG_ETH0_EXT_RMII_MODE) ∧
    (phy_interface_mode_is_rgmii .RGMII = false → PhyMode.RGMII ≠ .RMII →
       (meson8b_set_phy_mode .RGMII).err = some .UnsupportedPhyMode ∧
       (meson_axg_set_phy_mode .RGMII).err = some .UnsupportedPhyMode ∧
       DwmacError.errno .UnsupportedPhyMode = -22) ∧
    (∀ i, PRG_ETH0_RGMII_MODE.testBit i = false →
       (applyTrace 0x1e0f (meson8b_set_phy_mode .RGMII).trace).testBit i
         = (0x1e0f : Nat).testBit i) ∧
    (∀ i, PRG_ETH0_EXT_PHY_MODE_MASK.testBit i = false →
       (applyTrace 0x1e0f (meson_axg_set_phy_mode .RGMII).trace).testBit i
         = (0x1e0f : Nat).testBit i) :=
  set_phy_mode_policy_encodings .RGMII 0x1e0f (by norm_num)

/-- Claim C10: initialization never fails on account of the transmit
delay: for every tx_delay_ns and otherwise valid configuration the probe
succeeds, the computed tx-delay field is (tx_delay_ns >> 1) mod 4 placed
at bit 5 — out-of-range values are silently truncated into the 2-bit
field rather than rejected — and for mode RGMII the delay/adjust write
carries exactly that truncated field. -/
theorem meson8b_tx_delay_truncation (fam : Family) (d : Dwmac8b)
    (hm : PhyMode.supported d.phy_mode = true)
    (hrx : d.rx_delay_ns = 0 ∨ d.rx_delay_ns = 2)
    (hadj : d.rx_delay_ns = 2 → d.timing_adj_clk = true) :
    (meson8b_dwmac_probe fam d).err = none ∧
    tx_dly_config d.tx_delay_ns = ((d.tx_delay_ns >>> 1) % 4) <<< 5 ∧
    (d.phy_mode = .RGMII →
       (meson8b_init_prg_eth d).trace.filter isDelayAdjWrite
         = [Ev.regWrite PRG_ETH0_DELAY_ADJ_MASK
             ((((d.tx_delay_ns >>> 1) % 4) <<< 5) |||
               rx_dly_config d.rx_delay_ns)]) := by
  obtain ⟨m, tx, rx, adj⟩ := d
  dsimp only at hm hrx hadj ⊢
  refine ⟨?_, tx_dly_config_eq_mod tx, ?_⟩
  · rcases hrx with h | h <;> subst h
    · cases adj <;> cases fam <;> cases m <;> first
        | exact absurd hm (by decide)
        | simp [meson8b_dwmac_probe, set_phy_mode, meson8b_set_phy_mode,
            meson_axg_set_phy_mode, meson8b_init_prg_eth, rx_dly_config,
            phy_interface_mode_is_rgmii]
    · have ha := hadj rfl
      subst ha
      cases fam <;> cases m <;> first
        | exact absurd hm (by decide)
        | simp [meson8b_dwmac_probe, set_phy_mode, meson8b_set_phy_mode,
            meson_axg_set_phy_mode, meson8b_init_prg_eth, rx_dly_config,
            phy_interface_mode_is_rgmii, PRG_ETH0_ADJ_ENABLE, PRG_ETH0_ADJ_SETUP]
  · intro hmm
    subst hmm
    rcases hrx with h | h <;> subst h
    · simp [meson8b_init_prg_eth, rx_dly_config, isDelayAdjWrite,
        tx_dly_config_eq_mod, phy_interface_mode_is_rgmii, List.filter,
        PRG_ETH0_DELAY_ADJ_MASK, PRG_ETH0_TXDLY_MASK, PRG_ETH0_ADJ_DELAY,
        PRG_ETH0_ADJ_SKEW, PRG_ETH0_ADJ_ENABLE, PRG_ETH0_ADJ_SETUP,
        PRG_ETH0_INVERTED_RMII_CLK, PRG_ETH0_TX_AND_PHY_REF_CLK]
    · have ha := hadj rfl
      subst ha
      simp [meson8b_init_prg_eth, rx_dly_config, isDelayAdjWrite,
        tx_dly_config_eq_mod, phy_interface_mode_is_rgmii, List.filter,
        PRG_ETH0_DELAY_ADJ_MASK, PRG_ETH0_TXDLY_MASK, PRG_ETH0_ADJ_DELAY,
        PRG_ETH0_ADJ_SKEW, PRG_ETH0_ADJ_ENABLE, PRG_ETH0_ADJ_SETUP,
        PRG_ETH0_INVERTED_RMII_CLK, PRG_ETH0_TX_AND_PHY_REF_CLK]

/-- Witness for C10 at the odd, out-of-range tx = 3 ns, mode RGMII,
rx = 2 ns, clock present, extended family. -/
theorem meson8b_tx_delay_truncation_w :
    PhyMode.supported PhyMode.RGMII = true ∧
    ((meson8b_dwmac_probe .meson_axg ⟨.RGMII, 3, 2, true⟩).err = none ∧
     tx_dly_config 3 = ((3 >>> 1) % 4) <<< 5 ∧
     (PhyMode.RGMII = .RGMII →
       (meson8b_init_prg_eth ⟨.RGMII, 3, 2, true⟩).trace.filter isDelayAdjWrite
         = [Ev.regWrite PRG_ETH0_DELAY_ADJ_MASK
             ((((3 >>> 1) % 4) <<< 5) ||| rx_dly_config 2)])) :=
  ⟨by decide,
   meson8b_tx_delay_truncation .meson_axg ⟨.RGMII, 3, 2, true⟩ (by decide)
     (by decide) (fun _ => rfl)⟩

end Meson8b
